import Mathlib

/-!
Verification of the pagination, decoding and error-handling core of the
`netapp-api-python` client (`netapp/api.py`, `netapp/vocabulary.py`).

The development is a shallow embedding of the source:

* `XElem` models an `lxml.etree` element (tag name, text content,
  children).  Namespaces are elided: the client addresses every element
  through a single fixed namespace, so tag names alone determine lookup.
* The `_child_get_*` helpers mirror the module-level helper functions of
  `api.py`, including the `findtext` convention that a matched element
  with no text content yields `""` while an absent element yields `none`.
* `RawResponse` models the projections the client takes of a parsed
  response document: the `status`/`reason`/`errno` attributes of the
  `<results>` node, the `<num-records>` count, the children of the
  container element, and the `<next-tag>` element.  `nextTag = none`
  models an absent element; `nextTag = some s` models a present element
  whose parsed text content is `s`.  The xpath `text()` extraction used
  by `_get_paginated` is modelled separately by `tagTexts`, because a
  parsed element with empty content contributes no text node.
* `_get_paginated` is modelled as a fuel-indexed recursion producing the
  full transcript of a run: the requests sent, the records yielded (in
  order), and the terminating outcome, mirroring the generator's
  semantics of yielding each page's records before deciding whether to
  continue.
-/

namespace NetappApi

/-- Model of an `lxml.etree` element: tag name, text content and ordered
children.  `text = none` corresponds to an element with no text node (as
produced by parsing `<a></a>`). -/
inductive XElem : Type where
  | mk : String → Option String → List XElem → XElem

/-- The tag name of an element. -/
def XElem.tag : XElem → String
  | .mk t _ _ => t

/-- The text content of an element. -/
def XElem.text : XElem → Option String
  | .mk _ s _ => s

/-- The ordered child elements of an element. -/
def XElem.children : XElem → List XElem
  | .mk _ _ c => c

/-- Accumulate a decimal digit string into a number; any non-digit
character fails. -/
def parseDigitsAux (acc : Nat) : List Char → Option Nat
  | [] => some acc
  | c :: cs =>
    if c.isDigit then parseDigitsAux (acc * 10 + (c.toNat - 48)) cs
    else none

/-- A non-empty all-digit character list as a number. -/
def parseDigits : List Char → Option Nat
  | [] => none
  | cs => parseDigitsAux 0 cs

/-- Model of Python `int(s)` on a string: an optional sign followed by
at least one decimal digit; anything else raises `ValueError`
(modelled `none`). -/
def pyIntOfString (s : String) : Option Int :=
  match s.data with
  | '-' :: rest => (parseDigits rest).map fun n => -(n : Int)
  | '+' :: rest => (parseDigits rest).map fun n => (n : Int)
  | cs => (parseDigits cs).map fun n => (n : Int)

/-- Model of Python `int(s)` applied to an `Optional[str]`, with the
failure modes (`TypeError` on `None`, `ValueError` on a non-numeric
string) collapsed into `none`. -/
def pyInt (s : Option String) : Option Int :=
  match s with
  | none => none
  | some s => pyIntOfString s

/-- Walk a `findall`-style path: at each step, keep, for every element
matched so far and in document order, its children carrying the next tag
name.  This mirrors `ElementTree` path semantics for plain
`a/b/c`-shaped paths. -/
def findMatches (es : List XElem) : List String → List XElem
  | [] => es
  | n :: rest =>
    findMatches (es.flatMap fun e => e.children.filter (fun c => c.tag == n)) rest

/-- `_child_get_string(parent, *hierarchy)` (api.py): `findtext` for the
path.  Absent element gives `none`; a matched element with no text
content gives `""` (the `findtext` convention). -/
def _child_get_string (parent : XElem) (hierarchy : List String) : Option String :=
  match findMatches [parent] hierarchy with
  | [] => none
  | e :: _ => some (e.text.getD "")

/-- `_child_get_strings(parent, *hierarchy)` (api.py): the text of every
match, in document order. -/
def _child_get_strings (parent : XElem) (hierarchy : List String) : List (Option String) :=
  (findMatches [parent] hierarchy).map XElem.text

/-- `_child_get_int(parent, *hierarchy)` (api.py):
`int(_child_get_string(...))` with `ValueError`/`TypeError` caught and
turned into `None`. -/
def _child_get_int (parent : XElem) (hierarchy : List String) : Option Int :=
  pyInt (_child_get_string parent hierarchy)

/-- `_int_or_none(s)` (api.py): `int(s) if s else None`; an absent or
empty string gives `none`, a non-numeric string raises (modelled `none`
here only for total evaluation — no claim depends on that branch). -/
def _int_or_none (s : Option String) : Option Int :=
  match s with
  | none => none
  | some s => if s = "" then none else pyIntOfString s

/-- `_read_bool(s)` (api.py): `True` exactly when the input is the
literal string `"true"`; everything else — including `None` — is
`False`. -/
def _read_bool (s : Option String) : Bool :=
  s == some "true"

/-- The autosize flag of a `Volume` (api.py, `Volume.__init__`):
`_read_bool(_child_get_string(raw, 'volume-autosize-attributes',
'is-enabled'))`. -/
def volume_autosize_enabled (raw_object : XElem) : Bool :=
  _read_bool (_child_get_string raw_object
    ["volume-autosize-attributes", "is-enabled"])

/-- `_child_get_kv_dict(parent, string_name)` (api.py), as the ordered
key/value pair list it inserts into the dict: for each child of each
element named `string_name`, the pair of its `key` text and either `""`
(when the child has exactly one sub-element) or its `value` text.  The
Python dict is a deterministic function of this list. -/
def _child_get_kv_dict (parent : XElem) (string_name : String) :
    List (Option String × Option String) :=
  let containers := parent.children.filter (fun c => c.tag == string_name)
  let children := containers.flatMap XElem.children
  children.map fun child =>
    let key := _child_get_string child ["key"]
    let value : Option String :=
      if child.children.length == 1 then some ""
      else _child_get_string child ["value"]
    (key, value)

/-! ## Domain projection: Event (api.py, class Event) -/

/-- The fields assigned by `Event.__init__` from one raw record.  The
`datetime` attribute is `datetime.fromtimestamp(timestamp, tz)` for the
fixed local timezone — a deterministic, injective function of the
timestamp — and is therefore modelled by the timestamp value itself.
`arguments` is the ordered key/value list from `_child_get_kv_dict`
(the Python dict is a deterministic function of it). -/
structure Event where
  about : Option String
  category : Option String
  condition : Option String
  id : Int
  impact_area : Option String
  impact_level : Option String
  name : Option String
  severity : Option String
  source_name : Option String
  source_resource_key : Option String
  source_type : Option String
  state : Option String
  event_type : Option String
  datetime : Int
  timestamp : Int
  arguments : List (Option String × Option String)
deriving DecidableEq, Repr

/-- `Event.__init__(raw_event)` (api.py): every field is read off the raw
record with the `_child_get_*` helpers; `int(...)` applied to the
`event-id` and `event-time` strings raises on an absent or non-numeric
value, so construction is partial (`none` models the raised
`TypeError`/`ValueError`). -/
def eventOfRaw (raw_event : XElem) : Option Event := do
  let id ← pyInt (_child_get_string raw_event ["event-id"])
  let ts ← pyInt (_child_get_string raw_event ["event-time"])
  some
    { about := _child_get_string raw_event ["event-about"]
      category := _child_get_string raw_event ["event-category"]
      condition := _child_get_string raw_event ["event-condition"]
      id := id
      impact_area := _child_get_string raw_event ["event-impact-area"]
      impact_level := _child_get_string raw_event ["event-impact-level"]
      name := _child_get_string raw_event ["event-name"]
      severity := _child_get_string raw_event ["event-severity"]
      source_name := _child_get_string raw_event ["event-source-name"]
      source_resource_key := _child_get_string raw_event ["event-source-resource-key"]
      source_type := _child_get_string raw_event ["event-source-type"]
      state := _child_get_string raw_event ["event-state"]
      event_type := _child_get_string raw_event ["event-type"]
      datetime := ts
      timestamp := ts
      arguments := _child_get_kv_dict raw_event "event-arguments" }

/-- `Event.__eq__` (api.py): an isinstance check followed by
`self.__dict__ == other.__dict__`, i.e. field-for-field comparison of
every assigned attribute. -/
def eventEq (a b : Event) : Bool :=
  a.about == b.about &&
  a.category == b.category &&
  a.condition == b.condition &&
  a.id == b.id &&
  a.impact_area == b.impact_area &&
  a.impact_level == b.impact_level &&
  a.name == b.name &&
  a.severity == b.severity &&
  a.source_name == b.source_name &&
  a.source_resource_key == b.source_resource_key &&
  a.source_type == b.source_type &&
  a.state == b.state &&
  a.event_type == b.event_type &&
  a.datetime == b.datetime &&
  a.timestamp == b.timestamp &&
  a.arguments == b.arguments

/-! ## Queries and the continuation tag (vocabulary.py, api.py) -/

/-- A query is the ordered list of child elements of the api-call
element (e.g. the children of `<event-iter>`); `_get_paginated` mutates
exactly this list between pages. -/
abbrev Query := List XElem

/-- `V.tag(value)` (vocabulary.py): the element `<tag>value</tag>`. -/
def tagElem (value : String) : XElem :=
  .mk "tag" (some value) []

/-- The predicate used by `next_api_call.find('tag')`: a direct child
whose tag name is `tag`. -/
def isTag (e : XElem) : Bool :=
  e.tag == "tag"

/-- Number of continuation-tag elements held by a query. -/
def tagCount (q : Query) : Nat :=
  q.countP isTag

/-- The next-page query derived in `_get_paginated`: remove the first
`tag` child if one is present (`find('tag')` / `remove`), then append
`V.tag(next_tag)`. -/
def nextQuery (q : Query) (next_tag : String) : Query :=
  q.eraseP isTag ++ [tagElem next_tag]

/-! ## Responses, perform_call, and the paginator -/

/-- The projections `Server._get_paginated` and `Server.perform_call`
take of a parsed response document: the `status`, `reason` and `errno`
attributes of `<results>`, the integer content of `<num-records>`, the
children of the container element, and the `<next-tag>` element
(`none` = absent, `some s` = present with parsed text content `s`). -/
structure RawResponse where
  status : String
  reason : String
  errno : Int
  numRecords : Nat
  records : List XElem
  nextTag : Option String

/-- The xpath `next-tag/text()` extraction of `_get_paginated`: text
nodes of the tag element.  A parsed element whose content is empty has
no text node, so a present-but-empty tag contributes nothing — exactly
like an absent element. -/
def tagTexts (nextTag : Option String) : List String :=
  match nextTag with
  | none => []
  | some s => if s = "" then [] else [s]

/-- Python `str.rstrip(". ")`: drop trailing `'.'` and `' '`
characters. -/
def rstripDotSpace (s : String) : String :=
  ⟨(s.data.reverse.dropWhile fun c => c == '.' || c == ' ').reverse⟩

/-- `APIError` (api.py): `msg` is the message with trailing `". "`
characters stripped (`message.rstrip(". ")`), `errno` the numeric code,
and `failing_query` the query being processed when the error arose. -/
structure APIError where
  msg : String
  errno : Int
  failing_query : Query

/-- `Server.perform_call` (api.py), given the server's response to the
query: if the `status` attribute is not `"passed"`, raise an `APIError`
carrying the `reason` and `errno` attributes and the failing request;
otherwise return the response. -/
def perform_call (srv : Query → RawResponse) (api_call : Query) :
    Except APIError RawResponse :=
  let r := srv api_call
  if r.status = "passed" then .ok r
  else .error { msg := rstripDotSpace r.reason, errno := r.errno,
                failing_query := api_call }

/-- The ways a paginated run can stop abnormally: an `APIError` raised
by `perform_call`, the `AssertionError` from
`assert num_records == len(records)`, or fuel exhaustion (a model
artifact standing for a run that has not yet finished). -/
inductive PagError where
  | api (e : APIError)
  | contract (declared actual : Nat)
  | fuel

/-- The transcript of one run of the `_get_paginated` generator:
the requests actually sent (in order), the records yielded (in order,
across all pages), and the abnormal outcome if the run did not
terminate normally. -/
structure PagRun (α : Type u) where
  calls : List Query
  yielded : List α
  outcome : Option PagError

/-- `Server._get_paginated` (api.py), driven by a deterministic server
`srv` and bounded by `fuel` pages.  Each iteration performs the call,
asserts `num_records == len(records)`, yields each record through
`constructor` in order, and then continues exactly when the xpath
`next-tag/text()` extraction is non-empty, deriving the next query by
removing any existing `tag` child and appending the new one. -/
def _get_paginated {α : Type u} (srv : Query → RawResponse)
    (constructor : XElem → α) : Nat → Query → PagRun α
  | 0, _ => ⟨[], [], some .fuel⟩
  | fuel + 1, api_call =>
    match perform_call srv api_call with
    | .error e => ⟨[api_call], [], some (.api e)⟩
    | .ok r =>
      if r.numRecords = r.records.length then
        match tagTexts r.nextTag with
        | [] => ⟨[api_call], r.records.map constructor, none⟩
        | next_tag :: _ =>
          let rest := _get_paginated srv constructor fuel (nextQuery api_call next_tag)
          ⟨api_call :: rest.calls, r.records.map constructor ++ rest.yielded,
           rest.outcome⟩
      else
        ⟨[api_call], [], some (.contract r.numRecords r.records.length)⟩

/-! ## with_vserver (api.py, Server.with_vserver) -/

/-- How the `with` block guarded by `with_vserver` exits: normally, or
by raising an exception (named by a string). -/
inductive BlockExit where
  | normal
  | raised (exn : String)
deriving DecidableEq, Repr

/-- `Server.with_vserver` (api.py), as a state transformer on the
`vfiler` attribute.  The generator body is
`old = self.vfiler; self.vfiler = vserver; yield;
self.vfiler = old` with no `try/finally`: when the block raises, the
exception is thrown into the generator at the `yield` point and
propagates out before the restoring assignment runs, so the `vfiler`
value left behind is whatever it was when the block raised.  `body`
receives the vfiler value in force inside the block and returns the
vfiler value at the moment the block exits together with how it
exited. -/
def with_vserver (vfiler vserver : String)
    (body : String → String × BlockExit) : String × BlockExit :=
  let old_vfiler := vfiler
  let inside := vserver
  let (after, exit) := body inside
  match exit with
  | .normal => (old_vfiler, .normal)
  | .raised e => (after, .raised e)

/-! ## Single-item lookups (api.py, EventLog.single_by_id and
VolumeList.single) -/

/-- The exceptions a single-item lookup can surface: the `KeyError`
raised by `single_by_id` on zero matches, the `IndexError` raised by
`volumes[0]` on an empty list, or an error propagating out of the
underlying paginated call. -/
inductive LookupError where
  | keyError (msg : String)
  | indexError
  | pag (e : PagError)

/-- The query built by `single_by_id`:
`V.event_iter(V.event_id(str(id)))` — one `event-id` child carrying the
decimal id. -/
def single_by_id_query (id : Int) : Query :=
  [.mk "event-id" (some (toString id)) []]

/-- The query built by `VolumeList.filter(name=volume_name)`: the
`query/volume-attributes/volume-id-attributes/name` filter group (the
constant `desired-attributes` group is elided — it plays no role in the
lookup logic). -/
def volume_single_query (volume_name : String) : Query :=
  [.mk "query" none [.mk "volume-attributes" none
    [.mk "volume-id-attributes" none [.mk "name" (some volume_name) []]]]]

/-- `EventLog.single_by_id(id)` (api.py): build
`event_iter(event_id(str(id)))`, pull the first element of the
paginated sequence and return it; when the loop finishes without any
element, raise `KeyError("No such ID!")`.  Pulling the first element of
the lazy sequence surfaces any pagination error raised before the first
record was yielded. -/
def single_by_id {α : Type} (srv : Query → RawResponse)
    (constructor : XElem → α) (fuel : Nat) (id : Int) : Except LookupError α :=
  let run := _get_paginated srv constructor fuel (single_by_id_query id)
  match run.yielded with
  | e :: _ => .ok e
  | [] =>
    match run.outcome with
    | some err => .error (.pag err)
    | none => .error (.keyError "No such ID!")

/-- `VolumeList.single(volume_name)` (api.py):
`volumes = list(self.filter(name=volume_name)); return volumes[0]`.
The whole paginated sequence is materialised first (so any pagination
error propagates even past yielded records), then the first element is
taken, `IndexError` being raised when the list is empty. -/
def volume_single {α : Type} (srv : Query → RawResponse)
    (constructor : XElem → α) (fuel : Nat) (volume_name : String) :
    Except LookupError α :=
  let run := _get_paginated srv constructor fuel (volume_single_query volume_name)
  match run.outcome with
  | some err => .error (.pag err)
  | none =>
    match run.yielded with
    | v :: _ => .ok v
    | [] => .error .indexError

/-! ## export_rules_of (api.py, Server.export_rules_of) -/

/-- `unpack_rule(export_rule_info)` (api.py): the pair of the parsed
`rule-index` and the `client-match` string. -/
def unpack_rule (export_rule_info : XElem) : Option Int × Option String :=
  (_child_get_int export_rule_info ["rule-index"],
   _child_get_string export_rule_info ["client-match"])

/-- The comparison used to model `sorted(results, key=lambda x: x[0])`
on rule-index keys.  On two parsed indices it is integer `≤`; the
branches involving a missing index are arbitrary (Python would raise a
`TypeError` comparing `None` with `int`), and the sortedness theorem is
stated only for records whose index parses. -/
def ruleLe (a b : Option Int × Option String) : Bool :=
  match a.1, b.1 with
  | none, _ => true
  | some _, none => false
  | some i, some j => i ≤ j

/-- `Server.export_rules_of(policy_name)` (api.py), applied to the raw
rule records the paginated query returned: map `unpack_rule` over them
and return `sorted(results, key=lambda x: x[0])` as a fully
materialised list (a stable sort ascending on the rule index). -/
def export_rules_of (records : List XElem) : List (Option Int × Option String) :=
  List.insertionSort (fun a b => ruleLe a b = true) (records.map unpack_rule)

/-! ## The abstract paged server (for the refinement claims)

Modelled from the spec: the server side of the iterator protocol is an
external collaborator (spec §4.2/§4.4 — the HTTP transport and the
server are out of scope of the source), so for the pagination
equivalence claim it is modelled from the spec's words: the server
holds the fixed ordered result set of the filter, each request returns
the next page of at most `k` records starting at the position encoded
by the request's continuation tag (no tag = start), and a continuation
tag is present in the response exactly when records remain past the
returned page.  Tag values are opaque tokens; this model encodes the
position `p` as the string of `p` repetitions of `'x'` (never the empty
string for a position past a non-empty page). -/

/-- The opaque continuation-tag token for resuming at position `pos`. -/
def encTag (pos : Nat) : String :=
  ⟨List.replicate pos 'x'⟩

/-- The position a tag token stands for. -/
def decTag (s : String) : Nat :=
  s.length

/-- The resume position requested by a query: the position encoded by
its first `tag` child, or `0` when it has none. -/
def posOfQuery (q : Query) : Nat :=
  match q.find? isTag with
  | none => 0
  | some e => decTag (e.text.getD "")

/-- Modelled from the spec (§4.4, P1): a server answering one fixed
filter from the backing record list `data` with page size `k`: it
returns the `k` records starting at the requested position, declares
their exact count, and attaches a continuation tag exactly when records
remain beyond them. -/
def pagedServer (data : List XElem) (k : Nat) : Query → RawResponse :=
  fun q =>
    let pos := posOfQuery q
    let recs := (data.drop pos).take k
    { status := "passed", reason := "", errno := 0,
      numRecords := recs.length, records := recs,
      nextTag := if pos + k < data.length then some (encTag (pos + k)) else none }

/-! ## Step lemmas for the paginator -/

/-- One failed call: the run stops with the `APIError` built by
`perform_call` and no record of the page is yielded. -/
theorem _get_paginated_failed {α : Type u} (srv : Query → RawResponse)
    (ctor : XElem → α) (fuel : Nat) (q : Query)
    (hs : ¬ (srv q).status = "passed") :
    _get_paginated srv ctor (fuel + 1) q =
      ⟨[q], [], some (.api ⟨rstripDotSpace (srv q).reason, (srv q).errno, q⟩)⟩ := by
  simp only [_get_paginated, perform_call, if_neg hs]

/-- One passed call with consistent record count: the page's records are
yielded and the run continues exactly on a non-empty `next-tag/text()`
extraction. -/
theorem _get_paginated_passed {α : Type u} (srv : Query → RawResponse)
    (ctor : XElem → α) (fuel : Nat) (q : Query)
    (hs : (srv q).status = "passed")
    (hc : (srv q).numRecords = (srv q).records.length) :
    _get_paginated srv ctor (fuel + 1) q =
      match tagTexts (srv q).nextTag with
      | [] => ⟨[q], (srv q).records.map ctor, none⟩
      | next_tag :: _ =>
        let rest := _get_paginated srv ctor fuel (nextQuery q next_tag)
        ⟨q :: rest.calls, (srv q).records.map ctor ++ rest.yielded,
         rest.outcome⟩ := by
  simp only [_get_paginated, perform_call, if_pos hs, if_pos hc]

/-- One passed call whose declared count disagrees with the records
found: the run aborts with the assertion failure, yielding nothing from
the page. -/
theorem _get_paginated_mismatch {α : Type u} (srv : Query → RawResponse)
    (ctor : XElem → α) (fuel : Nat) (q : Query)
    (hs : (srv q).status = "passed")
    (hc : ¬ (srv q).numRecords = (srv q).records.length) :
    _get_paginated srv ctor (fuel + 1) q =
      ⟨[q], [], some (.contract (srv q).numRecords (srv q).records.length)⟩ := by
  simp only [_get_paginated, perform_call, if_pos hs, if_neg hc]

/-! ## Lemmas about queries and the continuation tag -/

/-- Removing the first `tag` child of a query holding at most one `tag`
leaves a query holding none. -/
theorem tagCount_eraseP {q : Query} (h : tagCount q ≤ 1) :
    tagCount (q.eraseP isTag) = 0 := by
  induction q with
  | nil => rfl
  | cons a q ih =>
    cases ha : isTag a with
    | true =>
      have h' : tagCount q = 0 := by
        simp [tagCount, List.countP_cons, ha] at h
        simpa [tagCount] using h
      simpa [List.eraseP_cons, ha, tagCount] using h'
    | false =>
      have h' : tagCount q ≤ 1 := by
        simpa [tagCount, List.countP_cons, ha] using h
      have h2 := ih h'
      simp [tagCount, List.eraseP_cons, ha, List.countP_cons] at h2 ⊢
      exact h2

/-- A query holding no `tag` child has no `tag` child to find. -/
theorem find?_eq_none_of_tagCount_zero {q : Query} (h : tagCount q = 0) :
    q.find? isTag = none :=
  List.find?_eq_none.2 (by
    rw [tagCount, List.countP_eq_zero] at h
    exact h)

/-- Erasing the first `tag` child leaves the non-`tag` children exactly
as they were, in order. -/
theorem filter_eraseP (q : Query) :
    (q.eraseP isTag).filter (fun e => !isTag e) = q.filter (fun e => !isTag e) := by
  induction q with
  | nil => rfl
  | cons a q ih =>
    by_cases ha : isTag a
    · simp [List.eraseP_cons, ha, List.filter_cons]
    · simp [List.eraseP_cons, ha, List.filter_cons, ih]

/-- The derived next-page query holds exactly one `tag` child. -/
theorem tagCount_nextQuery {q : Query} (t : String) (h : tagCount q ≤ 1) :
    tagCount (nextQuery q t) = 1 := by
  have h0 := tagCount_eraseP h
  simp only [nextQuery, tagCount, List.countP_append] at *
  have htag : isTag (tagElem t) = true := rfl
  simp [List.countP_cons, htag, h0]

/-- The unique `tag` child of the derived next-page query is the newly
appended one, carrying the returned tag value. -/
theorem find?_nextQuery {q : Query} (t : String) (h : tagCount q ≤ 1) :
    (nextQuery q t).find? isTag = some (tagElem t) := by
  have h0 : (q.eraseP isTag).find? isTag = none :=
    find?_eq_none_of_tagCount_zero (tagCount_eraseP h)
  have htag : isTag (tagElem t) = true := rfl
  simp [nextQuery, List.find?_append, h0, htag]

/-- The tag token for a position decodes back to that position. -/
theorem decTag_encTag (m : Nat) : decTag (encTag m) = m := by
  simp [decTag, encTag, String.length]

/-- The tag token for a positive position is not the empty string. -/
theorem encTag_ne_empty {m : Nat} (h : 0 < m) : ¬ encTag m = "" := by
  intro he
  have : (encTag m).data = ("" : String).data := by rw [he]
  simp [encTag] at this
  omega

/-- A query with no `tag` child requests position `0`. -/
theorem posOfQuery_eq_zero {q : Query} (h : tagCount q = 0) :
    posOfQuery q = 0 := by
  simp [posOfQuery, find?_eq_none_of_tagCount_zero h]

/-- The next-page query derived with the token for position `m`
requests position `m`. -/
theorem posOf_nextQuery {q : Query} (m : Nat) (h : tagCount q ≤ 1) :
    posOfQuery (nextQuery q (encTag m)) = m := by
  simp [posOfQuery, find?_nextQuery _ h, tagElem, XElem.text, decTag_encTag]

/-- One passed, consistent call with a terminal tag extraction: the run
stops normally after yielding the page. -/
theorem _get_paginated_terminal {α : Type u} (srv : Query → RawResponse)
    (ctor : XElem → α) (fuel : Nat) (q : Query)
    (hs : (srv q).status = "passed")
    (hc : (srv q).numRecords = (srv q).records.length)
    (ht : tagTexts (srv q).nextTag = []) :
    _get_paginated srv ctor (fuel + 1) q = ⟨[q], (srv q).records.map ctor, none⟩ := by
  rw [_get_paginated_passed _ _ _ _ hs hc, ht]

/-- One passed, consistent call with a non-empty tag extraction: the run
yields the page and continues with the derived next query. -/
theorem _get_paginated_continue {α : Type u} (srv : Query → RawResponse)
    (ctor : XElem → α) (fuel : Nat) (q : Query) (t : String) (ts : List String)
    (hs : (srv q).status = "passed")
    (hc : (srv q).numRecords = (srv q).records.length)
    (ht : tagTexts (srv q).nextTag = t :: ts) :
    _get_paginated srv ctor (fuel + 1) q =
      ⟨q :: (_get_paginated srv ctor fuel (nextQuery q t)).calls,
       (srv q).records.map ctor ++ (_get_paginated srv ctor fuel (nextQuery q t)).yielded,
       (_get_paginated srv ctor fuel (nextQuery q t)).outcome⟩ := by
  rw [_get_paginated_passed _ _ _ _ hs hc, ht]

/-! ## C1: pagination equivalence -/

/-- Against the abstract paged server, a run starting from any position
(with at most one tag in the query) yields exactly the remaining backing
records, in order, and terminates normally. -/
theorem run_pagedServer {α : Type} (data : List XElem) (k : Nat) (hk : 1 ≤ k)
    (ctor : XElem → α) :
    ∀ fuel q, tagCount q ≤ 1 → data.length - posOfQuery q < fuel →
      (_get_paginated (pagedServer data k) ctor fuel q).yielded
          = (data.drop (posOfQuery q)).map ctor
        ∧ (_get_paginated (pagedServer data k) ctor fuel q).outcome = none := by
  intro fuel
  induction fuel with
  | zero => intro q _ hf; omega
  | succ n ih =>
    intro q hq hf
    have hs : (pagedServer data k q).status = "passed" := rfl
    have hc : (pagedServer data k q).numRecords
        = (pagedServer data k q).records.length := rfl
    have hrecords : (pagedServer data k q).records
        = (data.drop (posOfQuery q)).take k := rfl
    have hnext : (pagedServer data k q).nextTag
        = if posOfQuery q + k < data.length
          then some (encTag (posOfQuery q + k)) else none := rfl
    by_cases hlt : posOfQuery q + k < data.length
    · have hne : ¬ encTag (posOfQuery q + k) = "" := encTag_ne_empty (by omega)
      have htt : tagTexts (pagedServer data k q).nextTag
          = [encTag (posOfQuery q + k)] := by
        rw [hnext, if_pos hlt]; simp [tagTexts, hne]
      rw [_get_paginated_continue _ _ _ _ _ _ hs hc htt]
      have hq' : tagCount (nextQuery q (encTag (posOfQuery q + k))) ≤ 1 := by
        rw [tagCount_nextQuery _ hq]
      have hpos' := posOf_nextQuery (q := q) (posOfQuery q + k) hq
      obtain ⟨hy, ho⟩ := ih (nextQuery q (encTag (posOfQuery q + k))) hq'
        (by rw [hpos']; omega)
      rw [hpos'] at hy
      refine ⟨?_, ho⟩
      show (pagedServer data k q).records.map ctor ++ _ = _
      rw [hrecords, hy, ← List.map_append]
      congr 1
      have hdd : data.drop (posOfQuery q + k) = (data.drop (posOfQuery q)).drop k := by
        rw [List.drop_drop]
      rw [hdd, List.take_append_drop]
    · have htt : tagTexts (pagedServer data k q).nextTag = [] := by
        rw [hnext, if_neg hlt]; rfl
      rw [_get_paginated_terminal _ _ _ _ hs hc htt]
      refine ⟨?_, rfl⟩
      show (pagedServer data k q).records.map ctor = _
      rw [hrecords]
      congr 1
      exact List.take_of_length_le (by rw [List.length_drop]; omega)

/-- C1: for any filter (any initial tag-free query `q₀`, the backing
result set `data` standing for the records matching it) and any page
size `k ≥ 1`, the paginated run yields exactly the projected backing
records, in order, terminates normally, and is element-for-element
equal to the run of the same query with unbounded page size — no
record is duplicated, dropped, or reordered across page boundaries. -/
theorem C1_pagination_equivalence {α : Type} (ctor : XElem → α)
    (data : List XElem) (k fuel : Nat) (q₀ : Query)
    (hk : 1 ≤ k) (hq : tagCount q₀ = 0) (hfuel : data.length < fuel) :
    (_get_paginated (pagedServer data k) ctor fuel q₀).yielded = data.map ctor
    ∧ (_get_paginated (pagedServer data k) ctor fuel q₀).outcome = none
    ∧ (_get_paginated (pagedServer data (data.length + 1)) ctor fuel q₀).yielded
        = data.map ctor
    ∧ (_get_paginated (pagedServer data k) ctor fuel q₀).yielded
        = (_get_paginated (pagedServer data (data.length + 1)) ctor fuel q₀).yielded := by
  have hpos : posOfQuery q₀ = 0 := posOfQuery_eq_zero hq
  have hq1 : tagCount q₀ ≤ 1 := by omega
  obtain ⟨hy1, ho1⟩ := run_pagedServer data k hk ctor fuel q₀ hq1 (by omega)
  obtain ⟨hy2, _⟩ := run_pagedServer data (data.length + 1) (by omega) ctor fuel q₀
    hq1 (by omega)
  rw [hpos, List.drop_zero] at hy1 hy2
  exact ⟨hy1, ho1, hy2, hy1.trans hy2.symm⟩

/-- C1 witness: three records fetched with page size 1 (three pages)
equal the unbounded fetch. -/
theorem C1_pagination_equivalence_witness :
    (1 ≤ 1 ∧ tagCount [] = 0 ∧ ([XElem.mk "e" (some "1") [], XElem.mk "e" (some "2") [],
        XElem.mk "e" (some "3") []] : List XElem).length < 5)
    ∧ (_get_paginated
        (pagedServer [XElem.mk "e" (some "1") [], XElem.mk "e" (some "2") [],
          XElem.mk "e" (some "3") []] 1)
        XElem.text 5 []).yielded
      = [some "1", some "2", some "3"] := by
  refine ⟨⟨le_refl 1, rfl, by decide⟩, ?_⟩
  exact (C1_pagination_equivalence XElem.text
    [XElem.mk "e" (some "1") [], XElem.mk "e" (some "2") [], XElem.mk "e" (some "3") []]
    1 5 [] (le_refl 1) rfl (by decide)).1

/-! ## C2: continuation-tag threading -/

/-- A non-empty transcript of requests starts with the initial query. -/
theorem calls_head {α : Type u} (srv : Query → RawResponse) (ctor : XElem → α)
    (fuel : Nat) (q : Query) :
    (_get_paginated srv ctor fuel q).calls = []
    ∨ (_get_paginated srv ctor fuel q).calls.head? = some q := by
  cases fuel with
  | zero => left; rfl
  | succ n =>
    right
    by_cases hs : (srv q).status = "passed"
    · by_cases hc : (srv q).numRecords = (srv q).records.length
      · cases ht : tagTexts (srv q).nextTag with
        | nil => rw [_get_paginated_terminal _ _ _ _ hs hc ht]; rfl
        | cons t ts => rw [_get_paginated_continue _ _ _ _ _ _ hs hc ht]; rfl
      · rw [_get_paginated_mismatch _ _ _ _ hs hc]; rfl
    · rw [_get_paginated_failed _ _ _ _ hs]; rfl

/-- Starting from a query with at most one `tag` child, every request a
run sends holds at most one `tag` child, and consecutive requests are
related by the remove-then-append tag derivation. -/
theorem calls_invariant {α : Type u} (srv : Query → RawResponse) (ctor : XElem → α) :
    ∀ fuel q, tagCount q ≤ 1 →
      (∀ q' ∈ (_get_paginated srv ctor fuel q).calls, tagCount q' ≤ 1)
      ∧ List.Chain' (fun a b => ∃ s, b = nextQuery a s)
          (_get_paginated srv ctor fuel q).calls := by
  intro fuel
  induction fuel with
  | zero =>
    intro q hq
    constructor
    · intro q' h
      simp [_get_paginated] at h
    · exact List.chain'_nil
  | succ n ih =>
    intro q hq
    by_cases hs : (srv q).status = "passed"
    · by_cases hc : (srv q).numRecords = (srv q).records.length
      · cases ht : tagTexts (srv q).nextTag with
        | nil =>
          rw [_get_paginated_terminal _ _ _ _ hs hc ht]
          exact ⟨by intro q' h; simp at h; subst h; exact hq, List.chain'_singleton q⟩
        | cons t ts =>
          rw [_get_paginated_continue _ _ _ _ _ _ hs hc ht]
          have hq' : tagCount (nextQuery q t) ≤ 1 := by
            rw [tagCount_nextQuery _ hq]
          obtain ⟨hmem, hch⟩ := ih (nextQuery q t) hq'
          constructor
          · intro q' h
            rcases List.mem_cons.1 h with h | h
            · subst h; exact hq
            · exact hmem q' h
          · rw [List.chain'_cons']
            refine ⟨?_, hch⟩
            intro b hb
            rcases calls_head srv ctor n (nextQuery q t) with hnil | hhd
            · rw [hnil] at hb; simp at hb
            · rw [hhd] at hb
              simp at hb
              exact ⟨t, hb.symm⟩
      · rw [_get_paginated_mismatch _ _ _ _ hs hc]
        exact ⟨by intro q' h; simp at h; subst h; exact hq, List.chain'_singleton q⟩
    · rw [_get_paginated_failed _ _ _ _ hs]
      exact ⟨by intro q' h; simp at h; subst h; exact hq, List.chain'_singleton q⟩

/-- C2: deriving the next-page request from a request holding at most
one `tag` child preserves every non-`tag` element unchanged and in
original relative order, leaves exactly one `tag` child — the newly
appended one, carrying the returned tag value — and along any run
started from such a request, every request sent holds at most one `tag`
child and consecutive requests are related by exactly this
derivation. -/
theorem C2_tag_threading (q : Query) (t : String) (h : tagCount q ≤ 1) :
    (nextQuery q t).filter (fun e => !isTag e) = q.filter (fun e => !isTag e)
    ∧ tagCount (nextQuery q t) = 1
    ∧ (nextQuery q t).find? isTag = some (tagElem t)
    ∧ ∀ (srv : Query → RawResponse) (fuel : Nat),
        (∀ q' ∈ (_get_paginated srv (fun e => e) fuel q).calls, tagCount q' ≤ 1)
        ∧ List.Chain' (fun a b => ∃ s, b = nextQuery a s)
            (_get_paginated srv (fun e => e) fuel q).calls := by
  refine ⟨?_, tagCount_nextQuery t h, find?_nextQuery t h, ?_⟩
  · rw [nextQuery, List.filter_append, filter_eraseP]
    have hf : (List.filter (fun e => !isTag e) [tagElem t]) = [] := rfl
    rw [hf, List.append_nil]
  · intro srv fuel
    exact calls_invariant srv _ fuel q h

/-- C2 witness: a request holding a filter element and the previous tag
`"T0"`, rethreaded with `"T1"`. -/
theorem C2_tag_threading_witness :
    tagCount [XElem.mk "max-records" (some "2") [], tagElem "T0"] ≤ 1
    ∧ (nextQuery [XElem.mk "max-records" (some "2") [], tagElem "T0"] "T1").find? isTag
        = some (tagElem "T1")
    ∧ tagCount (nextQuery [XElem.mk "max-records" (some "2") [], tagElem "T0"] "T1") = 1 := by
  refine ⟨by decide, ?_, ?_⟩
  · exact (C2_tag_threading [XElem.mk "max-records" (some "2") [], tagElem "T0"]
      "T1" (by decide)).2.2.1
  · exact (C2_tag_threading [XElem.mk "max-records" (some "2") [], tagElem "T0"]
      "T1" (by decide)).2.1

/-! ## C3: termination and the empty continuation tag -/

/-- A server whose responses always carry a present-but-empty
`next-tag` element. -/
def c3Server : Query → RawResponse := fun _ =>
  { status := "passed", reason := "", errno := 0, numRecords := 1,
    records := [.mk "rec" (some "r1") []], nextTag := some "" }

/-- C3 counterexample: a response carrying a present-but-empty
continuation-tag element does not cause another request — the run makes
exactly one call and terminates normally after that page, because the
xpath `text()` extraction of an element with empty content yields no
text node, exactly as for an absent element. -/
theorem C3_empty_tag_counterexample :
    (c3Server []).nextTag = some ""
    ∧ (_get_paginated c3Server (fun e => e) 5 []).calls = [[]]
    ∧ (_get_paginated c3Server (fun e => e) 5 []).outcome = none
    ∧ (_get_paginated c3Server (fun e => e) 5 []).yielded
        = [XElem.mk "rec" (some "r1") []] :=
  ⟨rfl, rfl, rfl, rfl⟩

/-- C3 (amended): after a passed page with consistent record count, the
run terminates exactly when the continuation-tag element is absent or
present with empty text — the two are indistinguishable through the
`text()` extraction — and continues with the derived next request
exactly when the tag element carries non-empty text. -/
theorem C3_termination_amended {α : Type u} (srv : Query → RawResponse)
    (ctor : XElem → α) (fuel : Nat) (q : Query)
    (hs : (srv q).status = "passed")
    (hc : (srv q).numRecords = (srv q).records.length) :
    ((srv q).nextTag = none ∨ (srv q).nextTag = some "" →
        _get_paginated srv ctor (fuel + 1) q = ⟨[q], (srv q).records.map ctor, none⟩)
    ∧ (∀ t, (srv q).nextTag = some t → ¬ t = "" →
        _get_paginated srv ctor (fuel + 1) q =
          ⟨q :: (_get_paginated srv ctor fuel (nextQuery q t)).calls,
           (srv q).records.map ctor
             ++ (_get_paginated srv ctor fuel (nextQuery q t)).yielded,
           (_get_paginated srv ctor fuel (nextQuery q t)).outcome⟩) := by
  constructor
  · intro h
    refine _get_paginated_terminal _ _ _ _ hs hc ?_
    rcases h with h | h <;> simp [tagTexts, h]
  · intro t ht hne
    refine _get_paginated_continue _ _ _ _ t [] hs hc ?_
    simp [tagTexts, ht, hne]

/-- C3 witness: the amended theorem applied to the empty-tag server. -/
theorem C3_termination_amended_witness :
    (c3Server []).status = "passed"
    ∧ (c3Server []).numRecords = (c3Server []).records.length
    ∧ ((c3Server []).nextTag = none ∨ (c3Server []).nextTag = some "")
    ∧ _get_paginated c3Server (fun e => e) 5 []
        = ⟨[[]], [XElem.mk "rec" (some "r1") []], none⟩ :=
  ⟨rfl, rfl, Or.inr rfl,
   (C3_termination_amended c3Server (fun e => e) 4 [] rfl rfl).1 (Or.inr rfl)⟩

/-! ## C4: record-count invariant -/

/-- C4: on a passed page, a declared `num-records` that disagrees with
the number of record elements found under the container tag aborts the
run with the assertion failure — a contract-violation outcome distinct
from an `APIError` — yielding nothing from that page (no truncation to
the declared count, no padding); when the counts agree, the page
contributes exactly `num-records` records to the yielded sequence. -/
theorem C4_record_count_invariant {α : Type u} (srv : Query → RawResponse)
    (ctor : XElem → α) (fuel : Nat) (q : Query)
    (hs : (srv q).status = "passed") :
    (¬ (srv q).numRecords = (srv q).records.length →
        _get_paginated srv ctor (fuel + 1) q =
          ⟨[q], [], some (.contract (srv q).numRecords (srv q).records.length)⟩)
    ∧ ((srv q).numRecords = (srv q).records.length →
        ∃ rest, (_get_paginated srv ctor (fuel + 1) q).yielded
            = (srv q).records.map ctor ++ rest
          ∧ ((srv q).records.map ctor).length = (srv q).numRecords) := by
  constructor
  · intro hc
    exact _get_paginated_mismatch _ _ _ _ hs hc
  · intro hc
    cases ht : tagTexts (srv q).nextTag with
    | nil =>
      refine ⟨[], ?_, ?_⟩
      · rw [_get_paginated_terminal _ _ _ _ hs hc ht, List.append_nil]
      · rw [List.length_map, hc]
    | cons t ts =>
      refine ⟨(_get_paginated srv ctor fuel (nextQuery q t)).yielded, ?_, ?_⟩
      · rw [_get_paginated_continue _ _ _ _ _ _ hs hc ht]
      · rw [List.length_map, hc]

/-- A server declaring two records while returning one. -/
def c4Server : Query → RawResponse := fun _ =>
  { status := "passed", reason := "", errno := 0, numRecords := 2,
    records := [.mk "rec" (some "r1") []], nextTag := none }

/-- C4 witness: the mismatching page aborts with the contract failure
and yields nothing. -/
theorem C4_record_count_invariant_witness :
    (c4Server []).status = "passed"
    ∧ ¬ (c4Server []).numRecords = (c4Server []).records.length
    ∧ _get_paginated c4Server (fun e => e) 3 []
        = ⟨[[]], [], some (.contract 2 1)⟩ :=
  ⟨rfl, by decide,
   (C4_record_count_invariant c4Server (fun e => e) 2 [] rfl).1 (by decide)⟩

/-! ## C5: error propagation -/

/-- C5: whenever a run's outcome is an `APIError`, the failing request
is the last request of the transcript — no further transport call is
made for that sequence, and in particular the failed page is never
retried — every earlier request of the transcript succeeded, and the
error exposes the failing response's `errno`, its `reason` (with
trailing `". "` characters stripped; unchanged whenever the reason has
none), and the failing request itself. -/
theorem C5_error_propagation {α : Type u} (srv : Query → RawResponse)
    (ctor : XElem → α) :
    ∀ fuel q e, (_get_paginated srv ctor fuel q).outcome = some (.api e) →
      ∃ qf, (_get_paginated srv ctor fuel q).calls.getLast? = some qf
        ∧ ¬ (srv qf).status = "passed"
        ∧ e.msg = rstripDotSpace (srv qf).reason
        ∧ (rstripDotSpace (srv qf).reason = (srv qf).reason → e.msg = (srv qf).reason)
        ∧ e.errno = (srv qf).errno
        ∧ e.failing_query = qf
        ∧ ∀ q' ∈ (_get_paginated srv ctor fuel q).calls.dropLast,
            (srv q').status = "passed" := by
  intro fuel
  induction fuel with
  | zero =>
    intro q e h
    simp [_get_paginated] at h
  | succ n ih =>
    intro q e h
    by_cases hs : (srv q).status = "passed"
    · by_cases hc : (srv q).numRecords = (srv q).records.length
      · cases ht : tagTexts (srv q).nextTag with
        | nil =>
          rw [_get_paginated_terminal _ _ _ _ hs hc ht] at h
          simp at h
        | cons t ts =>
          rw [_get_paginated_continue _ _ _ _ _ _ hs hc ht] at h ⊢
          obtain ⟨qf, hlast, hfail, hmsg, hmsg', herrno, hfq, hpassed⟩ :=
            ih (nextQuery q t) e h
          have hne : ¬ (_get_paginated srv ctor n (nextQuery q t)).calls = [] := by
            intro h0
            rw [h0] at hlast
            simp at hlast
          refine ⟨qf, ?_, hfail, hmsg, hmsg', herrno, hfq, ?_⟩
          · show (q :: (_get_paginated srv ctor n (nextQuery q t)).calls).getLast?
                = some qf
            rcases hcalls : (_get_paginated srv ctor n (nextQuery q t)).calls with
              _ | ⟨b, l⟩
            · exact absurd hcalls hne
            · rw [hcalls] at hlast
              rw [List.getLast?_cons_cons]
              exact hlast
          · show ∀ q' ∈ (q :: (_get_paginated srv ctor n (nextQuery q t)).calls).dropLast,
                (srv q').status = "passed"
            rw [List.dropLast_cons_of_ne_nil hne]
            intro q' hq'
            rcases List.mem_cons.1 hq' with h' | h'
            · subst h'; exact hs
            · exact hpassed q' h'
      · rw [_get_paginated_mismatch _ _ _ _ hs hc] at h
        simp at h
    · rw [_get_paginated_failed _ _ _ _ hs] at h ⊢
      simp only [Option.some.injEq, PagError.api.injEq] at h
      subst h
      refine ⟨q, rfl, hs, rfl, ?_, rfl, rfl, ?_⟩
      · intro hr
        exact hr
      · intro q' hq'
        simp at hq'

/-- A server reporting `status="failed"`, `reason="Bad filter"`,
`errno=14` on every call. -/
def c5Server : Query → RawResponse := fun _ =>
  { status := "failed", reason := "Bad filter", errno := 14, numRecords := 0,
    records := [], nextTag := none }

/-- C5 witness: the failing page surfaces `errno = 14` and reason
`"Bad filter"`, and the failing request is the last (and only) request
sent. -/
theorem C5_error_propagation_witness :
    (_get_paginated c5Server (fun e => e) 3 []).outcome
      = some (.api ⟨"Bad filter", 14, []⟩)
    ∧ ∃ qf, (_get_paginated c5Server (fun e => e) 3 []).calls.getLast? = some qf
        ∧ ¬ (c5Server qf).status = "passed"
        ∧ (⟨"Bad filter", 14, []⟩ : APIError).msg = rstripDotSpace (c5Server qf).reason
        ∧ (rstripDotSpace (c5Server qf).reason = (c5Server qf).reason →
            (⟨"Bad filter", 14, []⟩ : APIError).msg = (c5Server qf).reason)
        ∧ (⟨"Bad filter", 14, []⟩ : APIError).errno = (c5Server qf).errno
        ∧ (⟨"Bad filter", 14, []⟩ : APIError).failing_query = qf
        ∧ ∀ q' ∈ (_get_paginated c5Server (fun e => e) 3 []).calls.dropLast,
            (c5Server q').status = "passed" :=
  ⟨rfl, C5_error_propagation c5Server (fun e => e) 3 [] ⟨"Bad filter", 14, []⟩ rfl⟩

/-! ## C6: with_vserver restore semantics -/

/-- C6: `with_vserver` restores the prior vfiler on normal completion,
but on exceptional exit the missing `try/finally` leaves the override
in place: with prior value `""` and override `"vs1"`, a raising block
leaves the vfiler at `"vs1"`, not `""`. -/
theorem C6_with_vserver_restore :
    (with_vserver "" "vs1" (fun s => (s, .normal))).1 = ""
    ∧ (with_vserver "old-vs" "vs1" (fun s => (s, .normal))).1 = "old-vs"
    ∧ (with_vserver "" "vs1" (fun s => (s, .raised "APIError"))).1 = "vs1"
    ∧ ¬ ("vs1" : String) = "" :=
  ⟨rfl, rfl, rfl, by decide⟩

/-! ## C7: single-item lookup semantics -/

/-- C7: when the underlying paginated sequence yields at least one
record, the single-item lookups return its first element; when the run
succeeds with zero records, `single_by_id` raises the `KeyError` and
`VolumeList.single` the `IndexError` — both of a kind distinct from any
pagination-level error (in particular from any `APIError`) — and no
lookup ever returns without a yielded record to return. -/
theorem C7_single_lookup {α : Type} (srv : Query → RawResponse)
    (ctor : XElem → α) (fuel : Nat) (id : Int) (volume_name : String) :
    (∀ x rest,
        (_get_paginated srv ctor fuel (single_by_id_query id)).yielded = x :: rest →
        single_by_id srv ctor fuel id = .ok x)
    ∧ ((_get_paginated srv ctor fuel (single_by_id_query id)).yielded = [] →
        (_get_paginated srv ctor fuel (single_by_id_query id)).outcome = none →
        single_by_id srv ctor fuel id = .error (.keyError "No such ID!"))
    ∧ (∀ x rest,
        (_get_paginated srv ctor fuel (volume_single_query volume_name)).outcome
            = none →
        (_get_paginated srv ctor fuel (volume_single_query volume_name)).yielded
            = x :: rest →
        volume_single srv ctor fuel volume_name = .ok x)
    ∧ ((_get_paginated srv ctor fuel (volume_single_query volume_name)).outcome
            = none →
        (_get_paginated srv ctor fuel (volume_single_query volume_name)).yielded
            = [] →
        volume_single srv ctor fuel volume_name = .error .indexError)
    ∧ (∀ m e, ¬ (LookupError.keyError m = .pag e))
    ∧ (∀ e, ¬ (LookupError.indexError = .pag e)) := by
  refine ⟨?_, ?_, ?_, ?_, ?_, ?_⟩
  · intro x rest hy
    simp [single_by_id, hy]
  · intro hy ho
    simp [single_by_id, hy, ho]
  · intro x rest ho hy
    simp [volume_single, ho, hy]
  · intro ho hy
    simp [volume_single, ho, hy]
  · intro m e h
    exact LookupError.noConfusion h
  · intro e h
    exact LookupError.noConfusion h

/-- A server matching nothing: a passed, empty, tag-free response. -/
def c7EmptyServer : Query → RawResponse := fun _ =>
  { status := "passed", reason := "", errno := 0, numRecords := 0,
    records := [], nextTag := none }

/-- A server matching exactly one record. -/
def c7OneServer : Query → RawResponse := fun _ =>
  { status := "passed", reason := "", errno := 0, numRecords := 1,
    records := [.mk "rec" (some "match") []], nextTag := none }

/-- C7 witness: zero matches raise the `KeyError`; one match is
returned. -/
theorem C7_single_lookup_witness :
    ((_get_paginated c7EmptyServer (fun e => e) 3 (single_by_id_query 99)).yielded = []
      ∧ (_get_paginated c7EmptyServer (fun e => e) 3 (single_by_id_query 99)).outcome
          = none
      ∧ single_by_id c7EmptyServer (fun e => e) 3 99
          = .error (.keyError "No such ID!"))
    ∧ ((_get_paginated c7OneServer (fun e => e) 3 (single_by_id_query 99)).yielded
          = [XElem.mk "rec" (some "match") []]
      ∧ single_by_id c7OneServer (fun e => e) 3 99
          = .ok (XElem.mk "rec" (some "match") [])) :=
  ⟨⟨rfl, rfl,
    (C7_single_lookup c7EmptyServer (fun e => e) 3 99 "v").2.1 rfl rfl⟩,
   ⟨rfl,
    (C7_single_lookup c7OneServer (fun e => e) 3 99 "v").1
      (XElem.mk "rec" (some "match") []) [] rfl⟩⟩

/-! ## C8: boolean field decoding -/

/-- C8: `_read_bool` decodes to `True` exactly on the literal string
`"true"`; `"false"`, any other string and an absent value all decode to
`False` (the lenient policy — no input other than exactly `"true"` ever
decodes to `True`). -/
theorem C8_read_bool (s : Option String) :
    (_read_bool s = true ↔ s = some "true")
    ∧ _read_bool (some "false") = false
    ∧ _read_bool none = false := by
  refine ⟨?_, rfl, rfl⟩
  simp [_read_bool]

/-- C8 witness: the decoder evaluated at `"true"`, `"false"` and an
unrecognized string. -/
theorem C8_read_bool_witness :
    (_read_bool (some "true") = true ↔ some "true" = some "true")
    ∧ _read_bool (some "false") = false
    ∧ (_read_bool (some "TRUE") = true ↔ some "TRUE" = some "true") :=
  ⟨(C8_read_bool (some "true")).1, (C8_read_bool (some "true")).2.1,
   (C8_read_bool (some "TRUE")).1⟩

/-! ## C9: idempotent event decode -/

/-- C9: decoding the same raw record twice produces the same `Event`
value, and the two results are equal under the field-for-field
`__eq__` comparison. -/
theorem C9_event_decode_idempotent (raw_event : XElem) (e₁ e₂ : Event)
    (h₁ : eventOfRaw raw_event = some e₁) (h₂ : eventOfRaw raw_event = some e₂) :
    e₁ = e₂ ∧ eventEq e₁ e₂ = true := by
  have h : e₁ = e₂ := Option.some.inj (h₁.symm.trans h₂)
  subst h
  refine ⟨rfl, ?_⟩
  simp [eventEq]

/-- A concrete raw event record. -/
def c9Raw : XElem := .mk "record" none
  [.mk "event-id" (some "7") [], .mk "event-time" (some "100") [],
   .mk "event-name" (some "volume.offline") [],
   .mk "event-severity" (some "warning") []]

/-- The event decoded from `c9Raw`. -/
def c9Event : Event :=
  { about := none, category := none, condition := none, id := 7,
    impact_area := none, impact_level := none,
    name := some "volume.offline", severity := some "warning",
    source_name := none, source_resource_key := none, source_type := none,
    state := none, event_type := none, datetime := 100, timestamp := 100,
    arguments := [] }

/-- C9 witness: the concrete record decodes (twice) to the same
field-for-field-equal event. -/
theorem C9_event_decode_idempotent_witness :
    eventOfRaw c9Raw = some c9Event ∧ eventEq c9Event c9Event = true :=
  ⟨by decide,
   (C9_event_decode_idempotent c9Raw c9Event c9Event (by decide) (by decide)).2⟩

/-! ## C10: export rules are returned sorted by rule index -/

instance : DecidableRel (fun a b : Option Int × Option String => ruleLe a b = true) :=
  fun a b => inferInstanceAs (Decidable (ruleLe a b = true))

instance : IsTotal (Option Int × Option String) (fun a b => ruleLe a b = true) := by
  constructor
  intro a b
  rcases a with ⟨ia, sa⟩
  rcases b with ⟨ib, sb⟩
  cases ia <;> cases ib <;> simp [ruleLe]
  omega

instance : IsTrans (Option Int × Option String) (fun a b => ruleLe a b = true) := by
  constructor
  intro a b c hab hbc
  rcases a with ⟨ia, sa⟩
  rcases b with ⟨ib, sb⟩
  rcases c with ⟨ic, sc⟩
  cases ia <;> cases ib <;> cases ic <;> simp_all [ruleLe]
  omega

/-- C10: for rule records whose `rule-index` parses, `export_rules_of`
returns a fully materialised list holding exactly the projected
(index, rule) pairs — whatever order the server returned them in — and
sorted ascending on the rule index. -/
theorem C10_export_rules_sorted (records : List XElem)
    (hall : ∀ r ∈ records, (_child_get_int r ["rule-index"]).isSome = true) :
    List.Perm (export_rules_of records) (records.map unpack_rule)
    ∧ List.Sorted (fun a b => ruleLe a b = true) (export_rules_of records)
    ∧ (∀ p ∈ export_rules_of records, p.1.isSome = true)
    ∧ (∀ (i j : Int) (sa sb : Option String),
        ruleLe (some i, sa) (some j, sb) = true ↔ i ≤ j) := by
  refine ⟨List.perm_insertionSort _ _, List.sorted_insertionSort _ _, ?_, ?_⟩
  · intro p hp
    have hp' : p ∈ records.map unpack_rule :=
      (List.perm_insertionSort _ _).mem_iff.1 hp
    obtain ⟨r, hr, hpr⟩ := List.mem_map.1 hp'
    rw [← hpr]
    exact hall r hr
  · intro i j sa sb
    simp [ruleLe]

/-- A rule record with index 3. -/
def c10r1 : XElem := .mk "export-rule-info" none
  [.mk "rule-index" (some "3") [], .mk "client-match" (some "10.0.0.0/8") []]

/-- A rule record with index 1. -/
def c10r2 : XElem := .mk "export-rule-info" none
  [.mk "rule-index" (some "1") [], .mk "client-match" (some "0.0.0.0/0") []]

/-- C10 witness: two rules returned out of order come back sorted by
index. -/
theorem C10_export_rules_sorted_witness :
    (∀ r ∈ [c10r1, c10r2], (_child_get_int r ["rule-index"]).isSome = true)
    ∧ List.Sorted (fun a b => ruleLe a b = true) (export_rules_of [c10r1, c10r2])
    ∧ export_rules_of [c10r1, c10r2]
        = [(some 1, some "0.0.0.0/0"), (some 3, some "10.0.0.0/8")] :=
  ⟨by decide,
   (C10_export_rules_sorted [c10r1, c10r2] (by decide)).2.1,
   by decide⟩

end NetappApi
